import Mathlib

/-!
Shallow embedding of `src/evaluation/evaluator.py` from the
`dl_histopathology` repository: the evaluation harness (`Evaluator`),
its two prediction normalizers (`YoloEvaluator.infer_for_one_img`,
`RCNNEvaluator.infer_for_one_img`), the label loader
(`Evaluator.get_labels_for_image`), the population pass
(`Evaluator.__get_preds_and_labels`) and the four metric queries.

Tensors are embedded as lists of rows; scalar entries are rationals and
class labels are integers (cast to `ℚ` where the source concatenates them
into a float tensor).  External collaborators (`data_utils`,
`image_labelling`, the filesystem, the injected models and the
`ObjectDetectionMetrics` engine) are parameters of the embedding, as the
spec declares them out of scope.
-/

namespace Evaluation

/-- A ground-truth tensor for one image: rows `[x1, y1, x2, y2, class]`. -/
abbrev GroundTruth := List (List ℚ)

/-- A prediction tensor for one image: rows `[x1, y1, x2, y2, score, class]`. -/
abbrev Pred := List (List ℚ)

/-- Errors raised by the harness.  The Python code raises bare `Exception`s
with distinct messages; the spec names them `LabelFileNotFoundError` and
`NoDataError`.  `indexError` models Python's `IndexError` on `results[0]`
when the injected single-stage model returns an empty result list. -/
inductive EvalError where
  | labelFileNotFound
  | noDataError
  | indexError
  deriving DecidableEq, Repr

/-- `os.path.join` for the case used in the source (joining a directory
with a bare file name). -/
def os_path_join (dir file : String) : String := dir ++ "/" ++ file

instance exceptDecEq {ε α : Type} [DecidableEq ε] [DecidableEq α] :
    DecidableEq (Except ε α) := fun x y =>
  match x, y with
  | .error a, .error b =>
      if h : a = b then .isTrue (by rw [h]) else .isFalse (by simp [h])
  | .ok a, .ok b =>
      if h : a = b then .isTrue (by rw [h]) else .isFalse (by simp [h])
  | .error _, .ok _ => .isFalse (by simp)
  | .ok _, .error _ => .isFalse (by simp)

/-- The environment seen by `Evaluator.get_labels_for_image`:
* `test_labels` — the label-directory path stored on the harness;
* `get_filename` — the external `data_utils.get_filename`;
* `fs` — the filesystem plus the external parser
  `image_labelling.bboxes_from_yolo_labels`: `none` when
  `os.path.exists` is false, otherwise the parsed `(bboxes, labels)`
  pair (boxes as rows of rationals, labels as integers, matching the
  `int32` conversion in the source). -/
structure LabelEnv where
  test_labels : String
  get_filename : String → String
  fs : String → Option (List (List ℚ) × List Int)

/-- Embedding of `Evaluator.get_labels_for_image`:
derive `label_path = os.path.join(test_labels, filename + ".txt")`,
raise if the file does not exist, otherwise return
`torch.cat((bboxes, labels.unsqueeze(1)), dim=1)` — each row is the box
row with the integer class id appended. -/
def get_labels_for_image (env : LabelEnv) (img_path : String) :
    Except EvalError GroundTruth :=
  let filename := env.get_filename img_path
  let label_path := os_path_join env.test_labels (filename ++ ".txt")
  match env.fs label_path with
  | none => .error .labelFileNotFound
  | some (bboxes, labels) =>
      .ok (List.zipWith (fun (b : List ℚ) (l : Int) => b ++ [(l : ℚ)]) bboxes labels)

/-! ### The single-stage (Yolo-style) normalizer -/

/-- The slice of a YOLO result object the source touches: `.boxes.data`,
a tensor of rows `[x1, y1, x2, y2, score, class]`. -/
structure YoloResult where
  boxes_data : List (List ℚ)

/-- Environment of a `YoloEvaluator`: the shared label-loading
environment, the injected model (a function of the image path, the
confidence threshold and the device string, returning the result list)
and the configured device. -/
structure YoloEnv where
  labelEnv : LabelEnv
  model : String → ℚ → String → List YoloResult
  device : String

/-- Embedding of `YoloEvaluator.infer_for_one_img`: load the ground
truth, call `self.model(img_path, verbose=False, conf=0,
device=self.device)` and take `[0].boxes.data` unchanged. -/
def YoloEvaluator.infer_for_one_img (env : YoloEnv) (img_path : String) :
    Except EvalError (GroundTruth × Pred) := do
  let ground_truths ← get_labels_for_image env.labelEnv img_path
  match env.model img_path 0 env.device with
  | [] => .error .indexError
  | r :: _ => pure (ground_truths, r.boxes_data)

/-! ### The two-stage (RCNN-style) normalizer -/

/-- The detection structure `predictions[0]` returned by an RCNN-style
model: parallel arrays `labels`, `boxes`, `scores`, where label `0` is
the reserved background class. -/
structure RCNNOutput where
  labels : List Int
  boxes : List (List ℚ)
  scores : List ℚ

/-- Boolean-mask selection, the embedding of tensor indexing by the mask
`labels != 0`: keep the entries of `xs` at positions where `mask` holds. -/
def boolMask {α : Type} (mask : List Bool) (xs : List α) : List α :=
  (List.zip mask xs).filterMap (fun p => if p.1 then some p.2 else none)

/-- Three-way `zipWith`, the embedding of the column-wise
`torch.cat([bboxes, scores, labels], dim=-1)` over equal-length columns. -/
def zipWith3 {α β γ δ : Type} (f : α → β → γ → δ) :
    List α → List β → List γ → List δ
  | a :: as, b :: bs, c :: cs => f a b c :: zipWith3 f as bs cs
  | _, _, _ => []

/-- The tensor manipulation at the heart of
`RCNNEvaluator.infer_for_one_img`: build the mask `i = labels != 0`,
select `boxes[i]`, `scores[i]`, `labels[i] - 1`, and concatenate
column-wise into rows `[x1, y1, x2, y2, score, label - 1]`. -/
def rcnnNormalize (pred : RCNNOutput) : Pred :=
  let mask := pred.labels.map (fun l => decide (l ≠ 0))
  let bboxes := boolMask mask pred.boxes
  let scores := boolMask mask pred.scores
  let labels := (boolMask mask pred.labels).map (fun l => l - 1)
  zipWith3 (fun (b : List ℚ) (s : ℚ) (l : Int) => b ++ [s, (l : ℚ)]) bboxes scores labels

/-- An RCNN-style model handle: `training` is the `torch.nn.Module`
train/eval mode flag mutated by `self.model.eval()`; `forward` is the
model applied (in eval mode, under `torch.no_grad`) to the decoded,
scaled, alpha-stripped image of a path moved to a device — the image
decoding and the fixed preprocessing pipeline are external library
calls, so they are folded into this function of (path, device). -/
structure RCNNModel where
  training : Bool
  forward : String → String → RCNNOutput

/-- Environment of an `RCNNEvaluator`: shared label-loading environment
and the configured device (the model is passed separately because the
operation mutates it). -/
structure RCNNEnv where
  labelEnv : LabelEnv
  device : String

/-- Embedding of `RCNNEvaluator.infer_for_one_img`.  It first calls
`self.model.eval()` (mutating the borrowed model's mode flag), runs the
model on the preprocessed image, normalizes the output, and finally
loads the ground truth — in source order, so a missing label file
raises only after the model state was already mutated.  Returns the
result together with the model state after the call. -/
def RCNNEvaluator.infer_for_one_img (env : RCNNEnv) (m : RCNNModel) (img_path : String) :
    Except EvalError (GroundTruth × Pred) × RCNNModel :=
  let m' : RCNNModel := { m with training := false }
  let pred := m'.forward img_path env.device
  let predictions := rcnnNormalize pred
  match get_labels_for_image env.labelEnv img_path with
  | .error e => (.error e, m')
  | .ok ground_truths => (.ok (ground_truths, predictions), m')

/-! ### The harness: population pass, state and queries -/

/-- The mutable accumulation state of the harness: `self.preds` and
`self.gt`, two parallel lists of per-image tensors. -/
structure EvalState where
  preds : List Pred
  gt : List GroundTruth
  deriving DecidableEq, Repr

/-- One iteration of the population loop: run `infer_for_one_img` on the
path and append the prediction to `preds` and the ground truth to `gt`. -/
def populate_step (infer : String → Except EvalError (GroundTruth × Pred))
    (st : EvalState) (img_path : String) : Except EvalError EvalState := do
  let gp ← infer img_path
  pure { preds := st.preds ++ [gp.2], gt := st.gt ++ [gp.1] }

/-- Embedding of `Evaluator.__get_preds_and_labels`: first clear
`self.preds` and `self.gt` ("to prevent double counting images"), then
iterate the enumerated image paths in order, appending one prediction
and one ground truth per image.  `s` is the state the harness held
before the call; the clearing step discards it. -/
def get_preds_and_labels (infer : String → Except EvalError (GroundTruth × Pred))
    (img_paths : List String) (s : EvalState) : Except EvalError EvalState :=
  let _cleared := { s with preds := [], gt := [] }
  img_paths.foldlM (populate_step infer) _cleared

/-- The external `ObjectDetectionMetrics` engine, reduced to its call
contract: one opaque result type `ρ` and one total function per query
the harness delegates to. -/
structure Metrics (ρ : Type) where
  get_confusion_matrix : ℚ → Bool → Bool → ρ
  ap_per_class : Bool → Bool → String → ρ
  get_map50 : ρ
  get_map50_95 : ρ

/-- A fully constructed harness: the frozen accumulated sequences plus
the metrics engine built over them. -/
structure Harness (ρ : Type) where
  preds : List Pred
  gt : List GroundTruth
  metrics : Metrics ρ

/-- Embedding of `Evaluator.__init__`: run the population pass from the
freshly initialised empty state, then construct the metrics engine from
the accumulated sequences (`mkMetrics` stands for the external
`ObjectDetectionMetrics` constructor). -/
def Evaluator.mk {ρ : Type} (infer : String → Except EvalError (GroundTruth × Pred))
    (img_paths : List String)
    (mkMetrics : List Pred → List GroundTruth → Metrics ρ) :
    Except EvalError (Harness ρ) := do
  let s ← get_preds_and_labels infer img_paths { preds := [], gt := [] }
  pure { preds := s.preds, gt := s.gt, metrics := mkMetrics s.preds s.gt }

/-- Embedding of `Evaluator.confusion_matrix`: raise when
`not self.preds and not self.gt`, otherwise delegate. -/
def Evaluator.confusion_matrix {ρ : Type} (h : Harness ρ)
    (conf_threshold : ℚ) (all_iou plot : Bool) : Except EvalError ρ :=
  if h.preds = [] ∧ h.gt = [] then .error .noDataError
  else .ok (h.metrics.get_confusion_matrix conf_threshold all_iou plot)

/-- Embedding of `Evaluator.ap_per_class`: same guard, then delegate. -/
def Evaluator.ap_per_class {ρ : Type} (h : Harness ρ)
    (plot plot_all : Bool) (pfx : String) : Except EvalError ρ :=
  if h.preds = [] ∧ h.gt = [] then .error .noDataError
  else .ok (h.metrics.ap_per_class plot plot_all pfx)

/-- Embedding of `Evaluator.map50`: no guard, direct delegation. -/
def Evaluator.map50 {ρ : Type} (h : Harness ρ) : Except EvalError ρ :=
  .ok h.metrics.get_map50

/-- Embedding of `Evaluator.map50_95`: no guard, direct delegation. -/
def Evaluator.map50_95 {ρ : Type} (h : Harness ρ) : Except EvalError ρ :=
  .ok h.metrics.get_map50_95

/-- Specification-side traversal: run inference on every path in order,
collecting the `(ground_truth, prediction)` pairs, failing on the first
error. -/
def inferAll (infer : String → Except EvalError (GroundTruth × Pred)) :
    List String → Except EvalError (List (GroundTruth × Pred))
  | [] => .ok []
  | p :: ps => do
      let gp ← infer p
      let rest ← inferAll infer ps
      pure (gp :: rest)

/-! ### Concrete instances used to witness the theorems -/

/-- A one-image label environment: the label directory `"labels"`
contains exactly `img.txt` with one box `[0, 0, 10, 10]` of class `2`. -/
def lenvEx : LabelEnv where
  test_labels := "labels"
  get_filename := fun _ => "img"
  fs := fun p => if p = "labels/img.txt" then some ([[0, 0, 10, 10]], [2]) else none

/-- A label environment over an empty label directory. -/
def lenvEmpty : LabelEnv where
  test_labels := "labels"
  get_filename := fun _ => "img"
  fs := fun _ => none

/-- A deterministic single-stage model returning one result with one
detection row for every query. -/
def yoloEnvEx : YoloEnv where
  labelEnv := lenvEx
  model := fun _ _ _ => [{ boxes_data := [[1, 2, 3, 4, 9/10, 0]] }]
  device := "cuda"

/-- A two-stage environment sharing `lenvEx`. -/
def rcnnEnvEx : RCNNEnv where
  labelEnv := lenvEx
  device := "cuda"

/-- A two-stage model in training mode whose output mixes a background
detection (label 0) with a real one (label 3). -/
def rcnnModelEx : RCNNModel where
  training := true
  forward := fun _ _ =>
    { labels := [0, 3]
      boxes := [[1, 1, 2, 2], [3, 3, 4, 4]]
      scores := [1/2, 3/4] }

/-- A two-stage model that only ever reports background detections. -/
def rcnnModelBg : RCNNModel where
  training := true
  forward := fun _ _ =>
    { labels := [0, 0]
      boxes := [[1, 1, 2, 2], [3, 3, 4, 4]]
      scores := [1/2, 3/4] }

/-- A concrete metrics engine over `ρ := ℕ` whose queries return
distinguishable numbers. -/
def metricsEx : Metrics ℕ where
  get_confusion_matrix := fun _ _ _ => 1
  ap_per_class := fun _ _ _ => 2
  get_map50 := 3
  get_map50_95 := 4

/-- A harness whose accumulated sequences are both empty (as produced by
an empty test-image directory). -/
def emptyHarness : Harness ℕ where
  preds := []
  gt := []
  metrics := metricsEx

/-- A harness with one (empty) prediction entry and no ground-truth
entries, exercising the guard's conjunction. -/
def predsOnlyHarness : Harness ℕ where
  preds := [[]]
  gt := []
  metrics := metricsEx

/-- A concrete inference function used to exercise the population pass:
every image yields the `lenvEx` ground truth and one prediction row. -/
def inferEx : String → Except EvalError (GroundTruth × Pred) :=
  fun _ => .ok ([[0, 0, 10, 10, 2]], [[1, 2, 3, 4, 9/10, 0]])

/-- A concrete inference function that always fails as on a missing
label file. -/
def inferFail : String → Except EvalError (GroundTruth × Pred) :=
  fun _ => .error .labelFileNotFound

/-- The evaluation state produced by populating over one image with
`inferEx`. -/
def stateEx : EvalState where
  preds := [[[1, 2, 3, 4, 9/10, 0]]]
  gt := [[[0, 0, 10, 10, 2]]]

/-! ### Helper lemmas about the population pass -/

@[simp] lemma except_bind_ok {ε α β : Type} (a : α) (f : α → Except ε β) :
    (Except.ok a : Except ε α) >>= f = f a := rfl

@[simp] lemma except_bind_error {ε α β : Type} (e : ε) (f : α → Except ε β) :
    (Except.error e : Except ε α) >>= f = Except.error e := rfl

@[simp] lemma except_map_ok {ε α β : Type} (f : α → β) (a : α) :
    Except.map f (Except.ok a : Except ε α) = Except.ok (f a) := rfl

@[simp] lemma except_map_error {ε α β : Type} (f : α → β) (e : ε) :
    Except.map f (Except.error e : Except ε α) = Except.error e := rfl

@[simp] lemma except_pure_eq_ok {ε α : Type} (a : α) :
    (pure a : Except ε α) = Except.ok a := rfl

lemma get_labels_for_image_def (env : LabelEnv) (img_path : String) :
    get_labels_for_image env img_path =
      match env.fs (os_path_join env.test_labels (env.get_filename img_path ++ ".txt")) with
      | none => .error .labelFileNotFound
      | some (bboxes, labels) =>
          .ok (List.zipWith (fun (b : List ℚ) (l : Int) => b ++ [(l : ℚ)]) bboxes labels) := rfl

lemma rcnn_infer_model_state (env : RCNNEnv) (m : RCNNModel) (p : String) :
    (RCNNEvaluator.infer_for_one_img env m p).2 = { m with training := false } := by
  rw [RCNNEvaluator.infer_for_one_img]
  cases get_labels_for_image env.labelEnv p <;> rfl

lemma foldlM_populate_eq (infer : String → Except EvalError (GroundTruth × Pred))
    (paths : List String) (acc : EvalState) :
    paths.foldlM (populate_step infer) acc =
      (inferAll infer paths).map
        (fun l => ⟨acc.preds ++ l.map Prod.snd, acc.gt ++ l.map Prod.fst⟩) := by
  induction paths generalizing acc with
  | nil => simp [inferAll]
  | cons p ps ih =>
      simp only [List.foldlM_cons, inferAll]
      cases hp : infer p with
      | error e => simp [populate_step, hp]
      | ok gp =>
          simp only [populate_step, hp, except_bind_ok, except_pure_eq_ok]
          rw [ih]
          cases hr : inferAll infer ps with
          | error e => simp [hr]
          | ok rest => simp [hr, List.append_assoc]

lemma get_preds_and_labels_eq (infer : String → Except EvalError (GroundTruth × Pred))
    (paths : List String) (s : EvalState) :
    get_preds_and_labels infer paths s =
      (inferAll infer paths).map (fun l => ⟨l.map Prod.snd, l.map Prod.fst⟩) := by
  rw [get_preds_and_labels, foldlM_populate_eq]
  rfl

lemma inferAll_ok_length (infer : String → Except EvalError (GroundTruth × Pred))
    (paths : List String) (l : List (GroundTruth × Pred))
    (h : inferAll infer paths = .ok l) : l.length = paths.length := by
  induction paths generalizing l with
  | nil => simp [inferAll] at h; simp [← h]
  | cons p ps ih =>
      simp only [inferAll] at h
      cases hp : infer p with
      | error e => simp [hp] at h
      | ok gp =>
          simp only [hp, except_bind_ok] at h
          cases hr : inferAll infer ps with
          | error e => simp [hr] at h
          | ok rest =>
              simp only [hr, except_bind_ok, except_pure_eq_ok, Except.ok.injEq] at h
              simp [← h, ih rest hr]

lemma inferAll_ok_getD (infer : String → Except EvalError (GroundTruth × Pred))
    (paths : List String) (l : List (GroundTruth × Pred))
    (h : inferAll infer paths = .ok l) (i : Nat) (hi : i < paths.length) :
    infer (paths.getD i "") = .ok (l.getD i ([], [])) := by
  induction paths generalizing l i with
  | nil => simp at hi
  | cons p ps ih =>
      simp only [inferAll] at h
      cases hp : infer p with
      | error e => simp [hp] at h
      | ok gp =>
          simp only [hp, except_bind_ok] at h
          cases hr : inferAll infer ps with
          | error e => simp [hr] at h
          | ok rest =>
              simp only [hr, except_bind_ok, except_pure_eq_ok, Except.ok.injEq] at h
              subst h
              cases i with
              | zero => simpa using hp
              | succ j =>
                  simp only [List.getD_cons_succ]
                  exact ih rest hr j (by simpa using hi)

lemma getD_map_lt {α β : Type} (f : α → β) (l : List α) (i : Nat)
    (h : i < l.length) (d : β) (d' : α) :
    (l.map f).getD i d = f (l.getD i d') := by
  induction l generalizing i with
  | nil => simp at h
  | cons x xs ih =>
      cases i with
      | zero => simp
      | succ j => simpa using ih j (by simpa using h)

lemma inferAll_append (infer : String → Except EvalError (GroundTruth × Pred))
    (xs ys : List String) :
    inferAll infer (xs ++ ys) =
      (do
        let l1 ← inferAll infer xs
        let l2 ← inferAll infer ys
        pure (l1 ++ l2)) := by
  induction xs with
  | nil =>
      simp only [List.nil_append, inferAll, except_bind_ok]
      cases inferAll infer ys <;> simp
  | cons p ps ih =>
      simp only [List.cons_append, inferAll, List.append_eq]
      rw [ih]
      cases infer p with
      | error e => simp
      | ok gp =>
          simp only [except_bind_ok]
          cases inferAll infer ps with
          | error e => simp
          | ok l1 =>
              simp only [except_bind_ok, except_pure_eq_ok]
              cases inferAll infer ys <;> simp

@[simp] lemma boolMask_nil_mask {α : Type} (xs : List α) : boolMask [] xs = [] := by
  simp [boolMask]

@[simp] lemma boolMask_nil {α : Type} (ms : List Bool) : boolMask ms ([] : List α) = [] := by
  cases ms <;> simp [boolMask]

@[simp] lemma boolMask_cons {α : Type} (m : Bool) (ms : List Bool) (x : α) (xs : List α) :
    boolMask (m :: ms) (x :: xs) =
      if m then x :: boolMask ms xs else boolMask ms xs := by
  cases m <;> simp [boolMask]

@[simp] lemma zipWith3_nil_left {α β γ δ : Type} (f : α → β → γ → δ)
    (bs : List β) (cs : List γ) : zipWith3 f [] bs cs = [] := by
  cases bs <;> cases cs <;> rfl

lemma rcnnNormalize_spec_aux (ls : List Int) (bs : List (List ℚ)) (ss : List ℚ)
    (hb : bs.length = ls.length) (hs : ss.length = ls.length) :
    zipWith3 (fun (b : List ℚ) (s : ℚ) (l : Int) => b ++ [s, (l : ℚ)])
        (boolMask (ls.map (fun l => decide (l ≠ 0))) bs)
        (boolMask (ls.map (fun l => decide (l ≠ 0))) ss)
        ((boolMask (ls.map (fun l => decide (l ≠ 0))) ls).map (fun l => l - 1)) =
      ((bs.zip (ss.zip ls)).filter (fun r => decide (r.2.2 ≠ 0))).map
        (fun r => r.1 ++ [r.2.1, ((r.2.2 - 1 : Int) : ℚ)]) := by
  induction ls generalizing bs ss with
  | nil =>
      have hb' : bs = [] := by simpa using hb
      have hs' : ss = [] := by simpa using hs
      subst hb'; subst hs'
      rfl
  | cons l ls ih =>
      cases bs with
      | nil => simp at hb
      | cons b bs =>
          cases ss with
          | nil => simp at hs
          | cons s ss =>
              simp only [List.length_cons, Nat.succ.injEq] at hb hs
              by_cases hl : l = 0
              · subst hl
                simpa using ih bs ss hb hs
              · simp only [List.map_cons, boolMask_cons, decide_eq_true_eq,
                  List.zip_cons_cons, List.filter_cons]
                rw [if_pos hl, if_pos hl, if_pos hl]
                simp only [List.map_cons, zipWith3, List.filter, ih bs ss hb hs]
                simp [hl]

lemma rcnnNormalize_eq_filter (out : RCNNOutput)
    (hb : out.boxes.length = out.labels.length)
    (hs : out.scores.length = out.labels.length) :
    rcnnNormalize out =
      ((out.boxes.zip (out.scores.zip out.labels)).filter
          (fun r => decide (r.2.2 ≠ 0))).map
        (fun r => r.1 ++ [r.2.1, ((r.2.2 - 1 : Int) : ℚ)]) := by
  simpa [rcnnNormalize] using rcnnNormalize_spec_aux out.labels out.boxes out.scores hb hs

lemma boolMask_all_false {α : Type} (ls : List Int) (xs : List α)
    (h : ∀ l ∈ ls, l = 0) :
    boolMask (ls.map (fun l => decide (l ≠ 0))) xs = [] := by
  induction ls generalizing xs with
  | nil => simp
  | cons l ls ih =>
      cases xs with
      | nil => simp
      | cons x xs =>
          have hl : l = 0 := h l (by simp)
          simp only [List.map_cons, boolMask_cons, hl]
          simpa using ih xs (fun q hq => h q (by simp [hq]))

lemma rcnnNormalize_all_background (out : RCNNOutput)
    (h : ∀ l ∈ out.labels, l = 0) :
    rcnnNormalize out = [] := by
  simp only [rcnnNormalize]
  rw [boolMask_all_false out.labels out.boxes h]
  simp

lemma inferAll_all_ok (infer : String → Except EvalError (GroundTruth × Pred))
    (xs : List String) (hok : ∀ q ∈ xs, ∃ v, infer q = .ok v) :
    ∃ l, inferAll infer xs = .ok l := by
  induction xs with
  | nil => exact ⟨[], rfl⟩
  | cons p ps ih =>
      obtain ⟨v, hv⟩ := hok p (by simp)
      obtain ⟨l, hl⟩ := ih (fun q hq => hok q (by simp [hq]))
      exact ⟨v :: l, by simp [inferAll, hv, hl]⟩

/-! ### Claim theorems -/

/-- C1 (counterexample): on a harness whose accumulated sequences are
both empty, `map50` and `map50_95` do not fail with the no-data error:
they return the metrics engine's values, so the claim that all four
metric queries fail is false. -/
theorem map50_no_guard_cex :
    emptyHarness.preds = [] ∧ emptyHarness.gt = [] ∧
    Evaluator.map50 emptyHarness = .ok 3 ∧
    Evaluator.map50_95 emptyHarness = .ok 4 ∧
    Evaluator.map50 emptyHarness ≠ .error .noDataError ∧
    Evaluator.map50_95 emptyHarness ≠ .error .noDataError := by
  refine ⟨rfl, rfl, rfl, rfl, ?_, ?_⟩ <;> simp [Evaluator.map50, Evaluator.map50_95,
    emptyHarness, metricsEx]

/-- C1 (amended): on a harness whose accumulated sequences are both
empty — in particular one constructed over an empty test-image
directory — `confusion_matrix` and `ap_per_class` fail with the no-data
error, while `map50` and `map50_95` delegate to the metrics engine
without any guard. -/
theorem empty_state_query_behavior {ρ : Type} (h : Harness ρ)
    (hp : h.preds = []) (hg : h.gt = [])
    (c : ℚ) (a p pa : Bool) (pfx : String)
    (infer : String → Except EvalError (GroundTruth × Pred))
    (mkM : List Pred → List GroundTruth → Metrics ρ) :
    Evaluator.confusion_matrix h c a p = .error .noDataError ∧
    Evaluator.ap_per_class h p pa pfx = .error .noDataError ∧
    Evaluator.map50 h = .ok h.metrics.get_map50 ∧
    Evaluator.map50_95 h = .ok h.metrics.get_map50_95 ∧
    Evaluator.mk infer [] mkM =
      .ok { preds := [], gt := [], metrics := mkM [] [] } := by
  refine ⟨?_, ?_, rfl, rfl, rfl⟩ <;>
    simp [Evaluator.confusion_matrix, Evaluator.ap_per_class, hp, hg]

/-- C1 (witness): the amended behavior on the concrete empty harness. -/
theorem empty_state_query_behavior_witness :
    Evaluator.confusion_matrix emptyHarness (1/4) false false = .error .noDataError ∧
    Evaluator.ap_per_class emptyHarness false false "" = .error .noDataError ∧
    Evaluator.map50 emptyHarness = .ok emptyHarness.metrics.get_map50 ∧
    Evaluator.map50_95 emptyHarness = .ok emptyHarness.metrics.get_map50_95 ∧
    Evaluator.mk inferEx [] (fun _ _ => metricsEx) =
      .ok { preds := [], gt := [], metrics := metricsEx } :=
  empty_state_query_behavior emptyHarness rfl rfl (1/4) false false false ""
    inferEx (fun _ _ => metricsEx)

/-- C2: the two-stage normalizer returns exactly the non-background
detections (label not 0), in model-output order, each as a 6-column row
of the box, the score and the label decremented by one: it equals the
order-preserving filter-and-remap of the zipped parallel arrays. -/
theorem rcnn_normalizer_background_filter (out : RCNNOutput)
    (hb : out.boxes.length = out.labels.length)
    (hs : out.scores.length = out.labels.length) :
    rcnnNormalize out =
      ((out.boxes.zip (out.scores.zip out.labels)).filter
          (fun r => decide (r.2.2 ≠ 0))).map
        (fun r => r.1 ++ [r.2.1, ((r.2.2 - 1 : Int) : ℚ)]) :=
  rcnnNormalize_eq_filter out hb hs

/-- C2 (witness): a concrete output mixing a background and a real
detection keeps only the real one, with class id decremented. -/
theorem rcnn_normalizer_background_filter_witness :
    rcnnNormalize
        { labels := [0, 3], boxes := [[1, 1, 2, 2], [3, 3, 4, 4]],
          scores := [1/2, 3/4] } =
      [[3, 3, 4, 4, 3/4, 2]] := by
  have h := rcnn_normalizer_background_filter
    { labels := [0, 3], boxes := [[1, 1, 2, 2], [3, 3, 4, 4]],
      scores := [1/2, 3/4] } rfl rfl
  rw [h]
  norm_num

/-- C3 (counterexample): the population step clears both sequences
before iterating, so invoking it a second time from an already
populated state yields each image's entries once, not twice. -/
theorem repopulate_no_duplication_cex :
    get_preds_and_labels inferEx ["a.png"] { preds := [], gt := [] } = .ok stateEx ∧
    get_preds_and_labels inferEx ["a.png"] stateEx = .ok stateEx ∧
    stateEx.preds.length = 1 ∧ stateEx.gt.length = 1 :=
  ⟨rfl, rfl, rfl, rfl⟩

/-- C3 (amended): the population step is safely repeatable: it first
clears the accumulated sequences, so rerunning it from the state it
produced returns that exact state again, with no duplicated entries. -/
theorem get_preds_and_labels_repeatable
    (infer : String → Except EvalError (GroundTruth × Pred))
    (paths : List String) (s t : EvalState)
    (h : get_preds_and_labels infer paths s = .ok t) :
    get_preds_and_labels infer paths t = .ok t := by
  have hindep : get_preds_and_labels infer paths t =
      get_preds_and_labels infer paths s := rfl
  rw [hindep, h]

/-- C3 (witness): repeatability on the concrete one-image pass. -/
theorem get_preds_and_labels_repeatable_witness :
    get_preds_and_labels inferEx ["a.png"] stateEx = .ok stateEx :=
  get_preds_and_labels_repeatable inferEx ["a.png"]
    { preds := [], gt := [] } stateEx rfl

/-- C4 (counterexample): the two-stage per-image inference calls
`model.eval()`, so it mutates the borrowed model's state: a model in
training mode comes back with its training flag cleared. -/
theorem rcnn_infer_mutates_model_cex :
    rcnnModelEx.training = true ∧
    ((RCNNEvaluator.infer_for_one_img rcnnEnvEx rcnnModelEx "x.png").2).training = false :=
  ⟨rfl, rfl⟩

/-- C4 (amended): both variants are deterministic functions of (image
path, model, device) — repeat invocations return identical results —
and the single-stage variant mutates nothing, but the two-stage variant
does mutate the borrowed model: it sets the training flag to false
(after which it is idempotent on the model state). -/
theorem infer_deterministic_amended (env_y : YoloEnv) (env_r : RCNNEnv)
    (m : RCNNModel) (p : String) :
    YoloEvaluator.infer_for_one_img env_y p = YoloEvaluator.infer_for_one_img env_y p ∧
    (RCNNEvaluator.infer_for_one_img env_r m p).2 = { m with training := false } ∧
    RCNNEvaluator.infer_for_one_img env_r ((RCNNEvaluator.infer_for_one_img env_r m p).2) p =
      RCNNEvaluator.infer_for_one_img env_r m p := by
  refine ⟨rfl, rcnn_infer_model_state env_r m p, ?_⟩
  rw [rcnn_infer_model_state env_r m p]
  rfl

/-- C5: the single-stage normalizer invokes the injected model with
confidence threshold 0 on the configured device and passes the first
result's detection-box tensor through unchanged, with the ground truth
alongside. -/
theorem yolo_infer_passthrough (env : YoloEnv) (img_path : String)
    (g : GroundTruth) (r : YoloResult) (rs : List YoloResult)
    (hg : get_labels_for_image env.labelEnv img_path = .ok g)
    (hm : env.model img_path 0 env.device = r :: rs) :
    YoloEvaluator.infer_for_one_img env img_path = .ok (g, r.boxes_data) := by
  simp [YoloEvaluator.infer_for_one_img, hg, hm]

/-- C5 (witness): the concrete single-stage environment passes its one
detection row through untouched. -/
theorem yolo_infer_passthrough_witness :
    YoloEvaluator.infer_for_one_img yoloEnvEx "x.png" =
      .ok ([[0, 0, 10, 10, 2]], [[1, 2, 3, 4, 9/10, 0]]) :=
  yolo_infer_passthrough yoloEnvEx "x.png" [[0, 0, 10, 10, 2]]
    { boxes_data := [[1, 2, 3, 4, 9/10, 0]] } [] (by decide) rfl

/-- C6: whenever a population pass succeeds, the predictions and ground
truths sequences have the same length as the enumerated image list, and
at every index i both entries are exactly the two components the
per-image inference returned for the i-th image. -/
theorem populate_alignment
    (infer : String → Except EvalError (GroundTruth × Pred))
    (paths : List String) (s t : EvalState)
    (h : get_preds_and_labels infer paths s = .ok t) :
    t.preds.length = paths.length ∧ t.gt.length = paths.length ∧
    ∀ i, i < paths.length →
      infer (paths.getD i "") = .ok (t.gt.getD i [], t.preds.getD i []) := by
  rw [get_preds_and_labels_eq] at h
  cases hl : inferAll infer paths with
  | error e => rw [hl] at h; simp at h
  | ok l =>
      rw [hl, except_map_ok, Except.ok.injEq] at h
      subst h
      have hlen := inferAll_ok_length infer paths l hl
      refine ⟨by simpa using hlen, by simpa using hlen, ?_⟩
      intro i hi
      have hil : i < l.length := by rw [hlen]; exact hi
      have hget := inferAll_ok_getD infer paths l hl i hi
      show infer (paths.getD i "") =
        .ok ((l.map Prod.fst).getD i [], (l.map Prod.snd).getD i [])
      rw [getD_map_lt Prod.fst l i hil [] ([], []),
        getD_map_lt Prod.snd l i hil [] ([], [])]
      simpa using hget

/-- C6 (witness): alignment on the concrete one-image pass. -/
theorem populate_alignment_witness :
    stateEx.preds.length = ["a.png"].length ∧
    stateEx.gt.length = ["a.png"].length ∧
    ∀ i, i < ["a.png"].length →
      inferEx (["a.png"].getD i "") =
        .ok (stateEx.gt.getD i [], stateEx.preds.getD i []) :=
  populate_alignment inferEx ["a.png"] { preds := [], gt := [] } stateEx rfl

/-- C7: the label loader derives the label path as the image's base
filename with a `.txt` extension inside the label directory; it fails
with the label-file error exactly when that file is absent; on success
it returns the boxes with the integer class-id column appended; and a
failing image makes both normalizer variants fail, which aborts the
whole population pass with that error, producing no state. -/
theorem get_labels_for_image_contract (env : LabelEnv) (img_path : String)
    (infer : String → Except EvalError (GroundTruth × Pred))
    (pre post : List String) (s : EvalState) (e : EvalError) :
    (get_labels_for_image env img_path = .error .labelFileNotFound ↔
      env.fs (os_path_join env.test_labels (env.get_filename img_path ++ ".txt")) = none) ∧
    (∀ bboxes labels,
      env.fs (os_path_join env.test_labels (env.get_filename img_path ++ ".txt")) =
          some (bboxes, labels) →
      get_labels_for_image env img_path =
        .ok (List.zipWith (fun (b : List ℚ) (l : Int) => b ++ [(l : ℚ)]) bboxes labels)) ∧
    (env.fs (os_path_join env.test_labels (env.get_filename img_path ++ ".txt")) = none →
      ∀ mdl dev, YoloEvaluator.infer_for_one_img ⟨env, mdl, dev⟩ img_path =
        .error .labelFileNotFound) ∧
    (env.fs (os_path_join env.test_labels (env.get_filename img_path ++ ".txt")) = none →
      ∀ dev m, (RCNNEvaluator.infer_for_one_img ⟨env, dev⟩ m img_path).1 =
        .error .labelFileNotFound) ∧
    ((∀ q ∈ pre, ∃ v, infer q = .ok v) → infer img_path = .error e →
      get_preds_and_labels infer (pre ++ img_path :: post) s = .error e) := by
  refine ⟨?_, ?_, ?_, ?_, ?_⟩
  · rw [get_labels_for_image_def]
    cases env.fs (os_path_join env.test_labels (env.get_filename img_path ++ ".txt")) with
    | none => simp
    | some v => obtain ⟨bb, ll⟩ := v; simp
  · intro bboxes labels hsome
    rw [get_labels_for_image_def, hsome]
  · intro hnone mdl dev
    simp [YoloEvaluator.infer_for_one_img, get_labels_for_image_def, hnone]
  · intro hnone dev m
    simp [RCNNEvaluator.infer_for_one_img, get_labels_for_image_def, hnone]
  · intro hok herr
    rw [get_preds_and_labels_eq, inferAll_append]
    obtain ⟨l, hl⟩ := inferAll_all_ok infer pre hok
    rw [hl]
    simp [inferAll, herr]

/-- C7 (witness): over the empty label directory the loader fails, and
a failing image aborts a concrete population pass. -/
theorem get_labels_for_image_contract_witness :
    get_labels_for_image lenvEmpty "x.png" = .error .labelFileNotFound ∧
    get_preds_and_labels inferFail ["x.png"] { preds := [], gt := [] } =
      .error .labelFileNotFound := by
  have h := get_labels_for_image_contract lenvEmpty "x.png" inferFail [] []
    { preds := [], gt := [] } .labelFileNotFound
  exact ⟨h.1.mpr rfl, h.2.2.2.2 (by simp) rfl⟩

/-- C8: when the two-stage model reports zero detections or only
background detections, the per-image inference does not fail: it
returns an empty prediction row-set, and the population pass stores it
as a valid entry alongside the ground truth. -/
theorem rcnn_empty_predictions_ok (env : RCNNEnv) (m : RCNNModel)
    (img_path : String) (g : GroundTruth)
    (hg : get_labels_for_image env.labelEnv img_path = .ok g)
    (hbg : ∀ l ∈ (m.forward img_path env.device).labels, l = 0) :
    (RCNNEvaluator.infer_for_one_img env m img_path).1 = .ok (g, ([] : Pred)) ∧
    get_preds_and_labels (fun q => (RCNNEvaluator.infer_for_one_img env m q).1)
        [img_path] { preds := [], gt := [] } =
      .ok { preds := [([] : Pred)], gt := [g] } := by
  have h1 : (RCNNEvaluator.infer_for_one_img env m img_path).1 = .ok (g, ([] : Pred)) := by
    simp [RCNNEvaluator.infer_for_one_img, hg,
      rcnnNormalize_all_background _ (by simpa using hbg)]
  refine ⟨h1, ?_⟩
  simp [get_preds_and_labels, populate_step, h1]

/-- C8 (witness): the concrete background-only model yields an empty,
stored prediction row-set. -/
theorem rcnn_empty_predictions_ok_witness :
    (RCNNEvaluator.infer_for_one_img rcnnEnvEx rcnnModelBg "x.png").1 =
      .ok ([[0, 0, 10, 10, 2]], ([] : Pred)) ∧
    get_preds_and_labels
        (fun q => (RCNNEvaluator.infer_for_one_img rcnnEnvEx rcnnModelBg q).1)
        ["x.png"] { preds := [], gt := [] } =
      .ok { preds := [([] : Pred)], gt := [[[0, 0, 10, 10, 2]]] } :=
  rcnn_empty_predictions_ok rcnnEnvEx rcnnModelBg "x.png" [[0, 0, 10, 10, 2]]
    (by decide)
    (by intro l hl; simpa [rcnnModelBg] using hl)

/-- C9: both normalizer variants delegate ground-truth construction to
the shared `get_labels_for_image`, so over a common label environment
the ground-truth components of their per-image results coincide. -/
theorem ground_truth_model_family_independent (env_y : YoloEnv) (env_r : RCNNEnv)
    (m : RCNNModel) (img_path : String)
    (g1 g2 : GroundTruth) (p1 p2 : Pred)
    (henv : env_y.labelEnv = env_r.labelEnv)
    (h1 : YoloEvaluator.infer_for_one_img env_y img_path = .ok (g1, p1))
    (h2 : (RCNNEvaluator.infer_for_one_img env_r m img_path).1 = .ok (g2, p2)) :
    g1 = g2 := by
  cases hge : get_labels_for_image env_r.labelEnv img_path with
  | error e =>
      rw [YoloEvaluator.infer_for_one_img, henv, hge] at h1
      simp at h1
  | ok g =>
      rw [YoloEvaluator.infer_for_one_img, henv, hge] at h1
      rw [RCNNEvaluator.infer_for_one_img] at h2
      rw [hge] at h2
      simp at h2
      cases hm : env_y.model img_path 0 env_y.device with
      | nil => rw [hm] at h1; simp at h1
      | cons r rs =>
          rw [hm] at h1
          simp at h1
          exact h1.1.symm.trans h2.1

/-- C9 (witness): the two concrete variants agree on the ground truth of
the shared one-image environment. -/
theorem ground_truth_model_family_independent_witness :
    ([[0, 0, 10, 10, 2]] : GroundTruth) = [[0, 0, 10, 10, 2]] :=
  ground_truth_model_family_independent yoloEnvEx rcnnEnvEx rcnnModelEx "x.png"
    [[0, 0, 10, 10, 2]] [[0, 0, 10, 10, 2]]
    [[1, 2, 3, 4, 9/10, 0]] [[3, 3, 4, 4, 3/4, 2]]
    rfl
    (by rfl)
    (by rfl)

/-- C10: the empty-state guard in the two guarded queries raises only
when both sequences are empty: if at least one is non-empty, both
queries delegate to the metrics engine without raising. -/
theorem empty_guard_is_conjunction {ρ : Type} (h : Harness ρ)
    (hne : h.preds ≠ [] ∨ h.gt ≠ []) (c : ℚ) (a p pa : Bool) (pfx : String) :
    Evaluator.confusion_matrix h c a p =
      .ok (h.metrics.get_confusion_matrix c a p) ∧
    Evaluator.ap_per_class h p pa pfx =
      .ok (h.metrics.ap_per_class p pa pfx) := by
  have hcond : ¬(h.preds = [] ∧ h.gt = []) := by
    rcases hne with h1 | h1 <;> exact fun hc => h1 (by simp [hc.1, hc.2])
  constructor <;> simp [Evaluator.confusion_matrix, Evaluator.ap_per_class, hcond]

/-- C10 (witness): a harness with one prediction entry and no ground
truths is served by both guarded queries. -/
theorem empty_guard_is_conjunction_witness :
    Evaluator.confusion_matrix predsOnlyHarness (1/4) false false =
      .ok (predsOnlyHarness.metrics.get_confusion_matrix (1/4) false false) ∧
    Evaluator.ap_per_class predsOnlyHarness false false "" =
      .ok (predsOnlyHarness.metrics.ap_per_class false false "") :=
  empty_guard_is_conjunction predsOnlyHarness
    (Or.inl (by simp [predsOnlyHarness])) (1/4) false false false ""

end Evaluation
